import Mathlib

/-!
Verification of the result-normalization layer of the Noema Cognee service
(`apps/cognee_service/cognee_client.py`), in particular `CogneeClient.search`
and `CogneeClient.health_check`.

Python values reaching this layer are modelled by the inductive `PyVal`
(strings as `List Char`, `int`/`float` as `ℚ`, `None`, and string-keyed
dicts).  Raw backend records are the tagged union `RawResult`: a dict, an
attribute-bearing object (optional `payload` / `score` / `name` attributes
plus its `str()` form), or an opaque value with only a `str()` form.
Operations that can raise a `TypeError` in Python (slicing a non-string,
ordering a non-number against a float, adding an unhashable value to a set)
are modelled with `Option`/`Except` and a failure flag, so that the
try/except structure of `search` can be embedded faithfully: the outer
handler catches both a failing backend call and an exception thrown while
processing an individual record, and the inner handler catches any failure
of the secondary graph query.
-/

namespace Noema

mutual

/-- A Python value as seen by the normalization layer. -/
inductive PyVal where
  | str : List Char → PyVal
  | num : ℚ → PyVal
  | none : PyVal
  | dict : PyDict → PyVal
deriving DecidableEq

/-- A string-keyed Python dict, as an ordered list of key/value entries. -/
inductive PyDict where
  | nil : PyDict
  | cons : List Char → PyVal → PyDict → PyDict
deriving DecidableEq

end

/-- Build a `PyDict` from a list of entries (dict literals in examples). -/
def PyDict.ofList : List (List Char × PyVal) → PyDict
  | [] => .nil
  | (k, v) :: rest => .cons k v (PyDict.ofList rest)

/-- `d.get(key)` as `Option`: the value stored at `key`, if present. -/
def PyDict.get : PyDict → List Char → Option PyVal
  | .nil, _ => Option.none
  | .cons k v rest, key => if k = key then some v else rest.get key

/-- A raw search record returned by the backend: a string-keyed dict, an
object carrying optional `payload` / `score` / `name` attributes together
with its `str()` form, or anything else (only its `str()` form derivable). -/
inductive RawResult where
  | pydict (entries : PyDict)
  | obj (payload score name : Option PyVal) (strForm : List Char)
  | other (strForm : List Char)
deriving DecidableEq

mutual

/-- Python `repr` of a value (quote character and braces via `Char.ofNat`;
the numeric rendering abstracts CPython float formatting). -/
def PyVal.pyRepr : PyVal → List Char
  | .str s => Char.ofNat 39 :: (s ++ [Char.ofNat 39])
  | .num q => (toString q).toList
  | .none => "None".toList
  | .dict es => Char.ofNat 123 :: (es.reprEntries ++ [Char.ofNat 125])

/-- `repr` of the comma-separated entries of a dict. -/
def PyDict.reprEntries : PyDict → List Char
  | .nil => []
  | .cons k v rest =>
      (Char.ofNat 39 :: (k ++ [Char.ofNat 39])) ++ (':' :: ' ' :: v.pyRepr)
        ++ (match rest with | .nil => [] | _ => [',', ' ']) ++ rest.reprEntries

end

/-- Python `str` of a value: a string is itself, anything else its repr. -/
def PyVal.pyStr (v : PyVal) : List Char :=
  match v with
  | .str s => s
  | _ => v.pyRepr

/-- Python `str` of a raw record. -/
def RawResult.pyStr : RawResult → List Char
  | .pydict es => PyVal.pyRepr (.dict es)
  | .obj _ _ _ s => s
  | .other s => s

/-! ## Item extraction (`search`, lines 173-196)

`for i, result in enumerate(search_results[:top_k])` classifies each record
and extracts snippet / score / metadata, then truncates the snippet to 500
characters and clamps the score into [0, 1]. -/

/-- A normalized item as appended at lines 191-196 of `cognee_client.py`. -/
structure Item where
  cognee_id : List Char
  snippet : List Char
  score : ℚ
  metadata : PyVal
deriving DecidableEq

/-- The positional fallback score `1.0 - (i * 0.1)` (line 179). -/
def fallbackScore (i : Nat) : ℚ := 1 - (i : ℚ) * (1 / 10)

/-- Snippet extraction:
`result.get("text", result.get("content", str(result)))` for a dict,
`str(result.payload)` for an object with a `payload` attribute,
`str(result)` otherwise (lines 177-187). -/
def rawSnippet : RawResult → PyVal
  | .pydict es =>
      match es.get "text".toList with
      | some v => v
      | Option.none =>
          match es.get "content".toList with
          | some v => v
          | Option.none => .str (RawResult.pyStr (.pydict es))
  | .obj (some p) _ _ _ => .str p.pyStr
  | .obj Option.none _ _ s => .str s
  | .other s => .str s

/-- Score extraction: `result.get("score", 1.0 - (i * 0.1))` for a dict,
`getattr(result, "score", 1.0 - (i * 0.1))` for an object with a `payload`
attribute, the bare fallback otherwise (lines 179, 184, 188). -/
def rawScore : RawResult → Nat → PyVal
  | .pydict es, i => (es.get "score".toList).getD (.num (fallbackScore i))
  | .obj (some _) sc _ _, i => sc.getD (.num (fallbackScore i))
  | .obj Option.none _ _ _, i => .num (fallbackScore i)
  | .other _, i => .num (fallbackScore i)

/-- Metadata extraction: `result.get("metadata", {})` for a dict, `{}`
otherwise (lines 180, 185, 189). -/
def rawMeta : RawResult → PyVal
  | .pydict es => (es.get "metadata".toList).getD (.dict .nil)
  | .obj _ _ _ _ => .dict .nil
  | .other _ => .dict .nil

/-- `snippet[:500]` (line 193): slicing succeeds only on a string, taking its
first `n` characters; any other value raises a `TypeError`. -/
def pyTruncate (v : PyVal) (n : Nat) : Except Unit (List Char) :=
  match v with
  | .str s => .ok (s.take n)
  | _ => .error ()

/-- `min(max(score, 0.0), 1.0)` (line 194): comparing a non-number against a
float raises a `TypeError`. -/
def pyClamp (v : PyVal) : Except Unit ℚ :=
  match v with
  | .num q => .ok (min (max q 0) 1)
  | _ => .error ()

/-- Processing of one raw record at 0-based position `i` (lines 177-196),
producing the appended item or the exception the loop body raises. -/
def extractRecord (r : RawResult) (i : Nat) : Except Unit Item :=
  match pyTruncate (rawSnippet r) 500 with
  | .error e => .error e
  | .ok snip =>
      match pyClamp (rawScore r i) with
      | .error e => .error e
      | .ok sc => .ok ⟨("result_" ++ toString i).toList, snip, sc, rawMeta r⟩

/-- The enumeration loop over the (already truncated) record list, starting
at index `i`: items appended so far are kept when a record raises, and the
flag records whether an exception escaped to the outer handler. -/
def runItems : List RawResult → Nat → List Item × Bool
  | [], _ => ([], false)
  | r :: rest, i =>
      match extractRecord r i with
      | .error _ => ([], true)
      | .ok item =>
          let (more, failed) := runItems rest (i + 1)
          (item :: more, failed)

/-- `search_results[:top_k]` followed by the enumeration loop. -/
def processResults (rs : List RawResult) (topK : Nat) : List Item × Bool :=
  runItems (rs.take topK) 0

/-! ## Graph context assembly (`search`, lines 198-225)

A second backend query collects node names into a Python set and appends
edges for records exposing both `source` and `target`; any failure inside
this inner `try` is non-fatal. -/

/-- An edge appended at lines 215-220 of `cognee_client.py`. -/
structure Edge where
  «from» : PyVal
  «to» : PyVal
  relation : PyVal
  weight : PyVal
deriving DecidableEq

/-- The `graph_context` dict: a node list and an edge list. -/
structure GraphContext where
  nodes : List PyVal
  edges : List Edge
deriving DecidableEq

/-- Whether a value can be added to a Python set: dicts are unhashable and
raise a `TypeError`. -/
def PyVal.hashable : PyVal → Bool
  | .dict _ => false
  | _ => true

/-- `seen_nodes.add(v)` on the insertion-ordered model of the set. -/
def addNode (v : PyVal) (seen : List PyVal) : List PyVal :=
  if v ∈ seen then seen else seen ++ [v]

/-- One iteration of the graph loop (lines 209-220): `str(result.name)` is
added for an object with a `name` attribute; for a dict, the `name` value is
added to the set (raising on an unhashable value, modelled as `Option.none`)
and then an edge is appended when both `source` and `target` are present. -/
def graphStep (r : RawResult) (seen : List PyVal) (edges : List Edge) :
    Option (List PyVal × List Edge) :=
  match r with
  | .obj _ _ (some n) _ => some (addNode (.str n.pyStr) seen, edges)
  | .obj _ _ Option.none _ => some (seen, edges)
  | .pydict es =>
      let seen1 : Option (List PyVal) :=
        match es.get "name".toList with
        | some v => if v.hashable then some (addNode v seen) else Option.none
        | Option.none => some seen
      match seen1 with
      | Option.none => Option.none
      | some s1 =>
          match es.get "source".toList, es.get "target".toList with
          | some src, some tgt =>
              some (s1, edges ++ [⟨src, tgt,
                (es.get "relation".toList).getD (.str "related_to".toList),
                (es.get "weight".toList).getD (.num (1 / 2))⟩])
          | _, _ => some (s1, edges)
  | .other _ => some (seen, edges)

/-- The loop over `graph_results[:top_k]`: on an exception the edges appended
so far survive in `graph_context` but `graph_context["nodes"]` is never
assigned (line 222 is skipped). -/
def graphLoop : List RawResult → List PyVal → List Edge →
    List PyVal × List Edge × Bool
  | [], seen, edges => (seen, edges, false)
  | r :: rest, seen, edges =>
      match graphStep r seen edges with
      | Option.none => (seen, edges, true)
      | some (s1, e1) => graphLoop rest s1 e1

/-- Graph-context assembly over a successfully returned graph result list. -/
def processGraph (gs : List RawResult) (topK : Nat) : GraphContext :=
  match graphLoop (gs.take topK) [] [] with
  | (seen, edges, failed) => if failed then ⟨[], edges⟩ else ⟨seen, edges⟩

/-! ## The search pipeline (`search`, lines 142-234) -/

/-- The initial `graph_context = {"nodes": [], "edges": []}` (line 162). -/
def emptyGC : GraphContext := ⟨[], []⟩

/-- The `items` list and `graph_context` dict as they stand at line 231:
a failing primary backend call leaves both untouched; an exception while
processing a record keeps the items appended so far and skips the graph
query; a failing graph query leaves `graph_context` untouched. -/
def searchCore (primary graphQ : Except Unit (List RawResult)) (topK : Nat) :
    List Item × GraphContext :=
  match primary with
  | .error _ => ([], emptyGC)
  | .ok results =>
      match processResults results topK with
      | (its, true) => (its, emptyGC)
      | (its, false) =>
          match graphQ with
          | .error _ => (its, emptyGC)
          | .ok gs => (its, processGraph gs topK)

/-- `graph_context if graph_context["nodes"] or graph_context["edges"] else
None` (line 233). -/
def finalGraph (gc : GraphContext) : Option GraphContext :=
  if gc.nodes.isEmpty && gc.edges.isEmpty then Option.none else some gc

/-- The response dict returned at lines 231-234. -/
structure SearchResponse where
  items : List Item
  graph_context : Option GraphContext
deriving DecidableEq

/-- `CogneeClient.search`, with the two backend calls (`SearchType.INSIGHTS`
and `SearchType.GRAPH_COMPLETION`) abstracted as their outcomes: either the
record list they return or the exception they raise. -/
def search (primary graphQ : Except Unit (List RawResult)) (topK : Nat) :
    SearchResponse :=
  match searchCore primary graphQ topK with
  | (items, gc) => ⟨items, finalGraph gc⟩

/-! ## Initialization and health check (lines 32-39, 64-85, 236-243) -/

/-- `_configure_llm` (lines 32-39): with a key present it is forwarded to the
backend, without one only a warning is logged — neither branch raises. -/
def configure_llm (apiKey : Option (List Char)) : Except Unit Unit :=
  match apiKey with
  | some _ => .ok ()
  | Option.none => .ok ()

/-- `CogneeClient.initialize` (lines 64-85): configures the LLM key, then
performs backend/filesystem configuration steps whose possible failure is
abstracted by the flag `backendRaises`. -/
def initClient (apiKey : Option (List Char)) (backendRaises : Bool) :
    Except Unit Unit :=
  match configure_llm apiKey with
  | .error e => .error e
  | .ok _ => if backendRaises then .error () else .ok ()

/-- `CogneeClient.health_check` (lines 236-243): `True` when `initialize`
returns, `False` when it raises. -/
def health_check (apiKey : Option (List Char)) (backendRaises : Bool) : Bool :=
  match initClient apiKey backendRaises with
  | .ok _ => true
  | .error _ => false

/-! ## Concrete records used in examples and witnesses -/

/-- A dict record whose upstream score 5.7 exceeds the clamp range. -/
def rec57 : RawResult :=
  .pydict (.ofList [("text".toList, .str "hi".toList), ("score".toList, .num (57 / 10))])

/-- A dict record whose upstream score -2.0 undershoots the clamp range. -/
def recNeg2 : RawResult :=
  .pydict (.ofList [("text".toList, .str "lo".toList), ("score".toList, .num (-2))])

/-- The record `{"text": "A"*600, "score": 0.9}` from the spec. -/
def rec600 : RawResult :=
  .pydict (.ofList [("text".toList, .str (List.replicate 600 'A')),
    ("score".toList, .num (9 / 10))])

/-- A dict record with no `score` key. -/
def noScoreDict : PyDict := .ofList [("text".toList, .str "x".toList)]

/-- The entries of the graph record `{"source": "X", "target": "Y"}`. -/
def esXY : PyDict :=
  .ofList [("source".toList, .str "X".toList), ("target".toList, .str "Y".toList)]

/-- The graph record `{"source": "X", "target": "Y"}` from the spec. -/
def edgeRecXY : RawResult := .pydict esXY

/-- The entries of the graph record `{"name": {}, "source": "X",
"target": "Y"}`: its `name` value is an unhashable dict, so
`seen_nodes.add` raises before the edge append is reached. -/
def esBadName : PyDict :=
  .ofList [("name".toList, .dict .nil),
    ("source".toList, .str "X".toList), ("target".toList, .str "Y".toList)]

/-- The item `rec600` normalizes to at index 0: 500 characters, score 0.9. -/
def item600 : Item :=
  ⟨"result_0".toList, List.replicate 500 'A', 9 / 10, .dict .nil⟩

/-- The edge the spec expects from `edgeRecXY`. -/
def edgeXY : Edge :=
  ⟨.str "X".toList, .str "Y".toList, .str "related_to".toList, .num (1 / 2)⟩

/-- A well-formed dict record processed without an exception. -/
def goodRec : RawResult :=
  .pydict (.ofList [("text".toList, .str "hi".toList), ("score".toList, .num (9 / 10))])

/-- The item `goodRec` normalizes to at index 0. -/
def goodItem : Item := ⟨"result_0".toList, "hi".toList, 9 / 10, .dict .nil⟩

/-- A dict record whose `score` value is `None`, so that
`min(max(score, 0.0), 1.0)` raises a `TypeError` mid-loop. -/
def badScoreRec : RawResult :=
  .pydict (.ofList [("text".toList, .str "bad".toList), ("score".toList, .none)])

/-- The item `rec57` normalizes to at index 0: its score clamps to 1. -/
def item57 : Item := ⟨"result_0".toList, "hi".toList, 1, .dict .nil⟩

/-- The item `recNeg2` normalizes to at index 0: its score clamps to 0. -/
def itemNeg2 : Item := ⟨"result_0".toList, "lo".toList, 0, .dict .nil⟩

/-! ## Helper lemmas -/

/-- A successfully processed record yields exactly the dict appended at
lines 191-196: truncated snippet, clamped score, extracted metadata. -/
theorem extractRecord_ok (r : RawResult) (i : Nat) (it : Item)
    (h : extractRecord r i = .ok it) :
    ∃ s q, rawSnippet r = .str s ∧ rawScore r i = .num q ∧
      it = ⟨("result_" ++ toString i).toList, s.take 500, min (max q 0) 1, rawMeta r⟩ := by
  unfold extractRecord at h
  rcases hs : rawSnippet r with s | q | _ | d <;> rw [hs] at h <;>
    simp only [pyTruncate] at h
  · rcases hq : rawScore r i with s' | q | _ | d <;> rw [hq] at h <;>
      simp only [pyClamp] at h
    · cases h
    · injection h with h
      exact ⟨s, q, rfl, rfl, h.symm⟩
    · cases h
    · cases h
  · cases h
  · cases h
  · cases h

/-- Pushing the loop one step when the head record processes cleanly. -/
theorem runItems_cons_ok (r : RawResult) (rest : List RawResult) (i : Nat)
    (it : Item) (h : extractRecord r i = .ok it) :
    runItems (r :: rest) i =
      (it :: (runItems rest (i + 1)).1, (runItems rest (i + 1)).2) := by
  simp [runItems, h]

/-- Pushing the loop one step when the head record raises. -/
theorem runItems_cons_err (r : RawResult) (rest : List RawResult) (i : Nat)
    (h : extractRecord r i = .error ()) :
    runItems (r :: rest) i = ([], true) := by
  simp [runItems, h]

/-- The loop emits at most one item per record. -/
theorem runItems_length (l : List RawResult) (i : Nat) :
    (runItems l i).1.length ≤ l.length := by
  induction l generalizing i with
  | nil => simp [runItems]
  | cons r rest ih =>
      rcases h : extractRecord r i with e | it
      · cases e
        simp [runItems_cons_err r rest i h]
      · rw [runItems_cons_ok r rest i it h]
        simpa using ih (i + 1)

/-- Every item the loop emits comes from `extractRecord` at some index. -/
theorem runItems_mem (l : List RawResult) (i : Nat) (it : Item)
    (h : it ∈ (runItems l i).1) :
    ∃ r j, extractRecord r j = .ok it := by
  induction l generalizing i with
  | nil => simp [runItems] at h
  | cons r rest ih =>
      rcases hx : extractRecord r i with e | it'
      · cases e
        rw [runItems_cons_err r rest i hx] at h
        simp at h
      · rw [runItems_cons_ok r rest i it' hx] at h
        rcases List.mem_cons.mp h with h | h
        · exact ⟨r, i, h ▸ hx⟩
        · exact ih (i + 1) h

/-- The items of a successful primary search are exactly the loop output,
whatever the graph query does. -/
theorem search_items_eq (R : List RawResult) (g : Except Unit (List RawResult))
    (k : Nat) : (search (.ok R) g k).items = (processResults R k).1 := by
  unfold search searchCore
  rcases hp : processResults R k with ⟨its, flag⟩
  cases flag <;> cases g <;> simp [hp]

/-- The returned `graph_context` is the line-233 conditional applied to the
assembled graph context. -/
theorem search_graph_eq (p g : Except Unit (List RawResult)) (k : Nat) :
    (search p g k).graph_context = finalGraph (searchCore p g k).2 := by
  unfold search
  rcases searchCore p g k with ⟨its, gc⟩
  rfl

/-- The items of any search are exactly the loop output of its primary
branch. -/
theorem search_items_core (p g : Except Unit (List RawResult)) (k : Nat) :
    (search p g k).items = (searchCore p g k).1 := by
  unfold search
  rcases searchCore p g k with ⟨its, gc⟩
  rfl

/-- `finalGraph` is `none` exactly on the empty graph context. -/
theorem finalGraph_none_iff (gc : GraphContext) :
    finalGraph gc = Option.none ↔ gc.nodes = [] ∧ gc.edges = [] := by
  unfold finalGraph
  rcases gc with ⟨ns, es⟩
  cases ns <;> cases es <;> simp

/-- When `finalGraph` is `some`, it returns the context unchanged. -/
theorem finalGraph_some (gc gc' : GraphContext) (h : finalGraph gc = some gc') :
    gc' = gc := by
  unfold finalGraph at h
  split at h
  · cases h
  · cases h; rfl

/-- Every item the loop emits carries a clamped score. -/
theorem runItems_score_bounds (l : List RawResult) (i : Nat) (it : Item)
    (h : it ∈ (runItems l i).1) : 0 ≤ it.score ∧ it.score ≤ 1 := by
  obtain ⟨r, j, hr⟩ := runItems_mem l i it h
  obtain ⟨s, q, _, _, hit⟩ := extractRecord_ok r j it hr
  subst hit
  exact ⟨le_min (le_max_right q 0) zero_le_one, min_le_right _ _⟩

/-- Searching the record with upstream score 5.7 yields exactly the item
with score 1. -/
theorem items_rec57 : (search (.ok [rec57]) (.error ()) 5).items = [item57] := by
  rw [show (search (.ok [rec57]) (.error ()) 5).items =
    [⟨"result_0".toList, "hi".toList, min (max (57 / 10) 0) 1, .dict .nil⟩] from rfl]
  simp only [item57, List.cons.injEq, Item.mk.injEq, and_true, true_and]
  norm_num

/-- Searching the record with upstream score -2.0 yields exactly the item
with score 0. -/
theorem items_recNeg2 :
    (search (.ok [recNeg2]) (.error ()) 5).items = [itemNeg2] := by
  rw [show (search (.ok [recNeg2]) (.error ()) 5).items =
    [⟨"result_0".toList, "lo".toList, min (max (-2) 0) 1, .dict .nil⟩] from rfl]
  simp only [itemNeg2, List.cons.injEq, Item.mk.injEq, and_true, true_and]
  norm_num

/-- Processing `goodRec` at index 0 succeeds with `goodItem`. -/
theorem extract_goodRec : extractRecord goodRec 0 = .ok goodItem := by
  rw [show extractRecord goodRec 0 = .ok ⟨"result_0".toList, "hi".toList,
    min (max (9 / 10) 0) 1, .dict .nil⟩ from rfl]
  simp only [Except.ok.injEq, goodItem, Item.mk.injEq, true_and, and_true]
  norm_num

/-! ## The claims -/

/-- C1: if the primary backend search call raises, `search` returns exactly
`{items: [], graph: null}` — no exception escapes. -/
theorem C1_primary_failure_yields_empty
    (g : Except Unit (List RawResult)) (k : Nat) :
    search (.error ()) g k = ⟨[], Option.none⟩ := rfl

/-- C2: every produced item's score lies in [0, 1] whatever the upstream
score was; in particular an upstream 5.7 clamps to 1.0 and an upstream -2.0
clamps to 0.0. -/
theorem C2_scores_clamped :
    (∀ (p g : Except Unit (List RawResult)) (k : Nat) (it : Item),
        it ∈ (search p g k).items → 0 ≤ it.score ∧ it.score ≤ 1)
    ∧ (search (.ok [rec57]) (.error ()) 5).items.map Item.score = [1]
    ∧ (search (.ok [recNeg2]) (.error ()) 5).items.map Item.score = [0] := by
  refine ⟨?_, by rw [items_rec57]; simp [item57],
    by rw [items_recNeg2]; simp [itemNeg2]⟩
  intro p g k it h
  rw [search_items_core] at h
  rcases p with e | R
  · simp [searchCore] at h
  · rw [show (searchCore (.ok R) g k).1 = (processResults R k).1 by
      rw [← search_items_core, search_items_eq]] at h
    exact runItems_score_bounds _ _ _ h

/-- C2 witness: the record with upstream score 5.7 yields a concrete member
item, whose score the theorem bounds (and which in fact equals 1). -/
theorem C2_scores_clamped_witness :
    item57 ∈ (search (.ok [rec57]) (.error ()) 5).items
    ∧ 0 ≤ item57.score ∧ item57.score ≤ 1 :=
  ⟨by rw [items_rec57]; exact List.mem_singleton.mpr rfl,
    C2_scores_clamped.1 (.ok [rec57]) (.error ()) 5 item57
      (by rw [items_rec57]; exact List.mem_singleton.mpr rfl)⟩

/-- C3: the number of returned items never exceeds `min (len R) topK`: only
the first `topK` records are processed, at most one item each. -/
theorem C3_items_bounded (R : List RawResult) (g : Except Unit (List RawResult))
    (k : Nat) : (search (.ok R) g k).items.length ≤ min R.length k := by
  rw [search_items_eq]
  unfold processResults
  calc (runItems (R.take k) 0).1.length
      ≤ (R.take k).length := runItems_length _ _
    _ ≤ min R.length k := by simp [List.length_take, Nat.min_comm]

/-- C4: for a mapping-shaped record at position `i`, the snippet comes from
`text`, else `content`, else the record's string form; the score comes from
`score`, else the fallback `1.0 - i*0.1` (so index 2 with no `score` key
gets 0.8); the metadata comes from `metadata`, else an empty mapping. -/
theorem C4_mapping_extraction (es : PyDict) (i : Nat) :
    (∀ v, es.get "text".toList = some v → rawSnippet (.pydict es) = v)
    ∧ (es.get "text".toList = Option.none →
        ∀ v, es.get "content".toList = some v → rawSnippet (.pydict es) = v)
    ∧ (es.get "text".toList = Option.none →
        es.get "content".toList = Option.none →
        rawSnippet (.pydict es) = .str (RawResult.pyStr (.pydict es)))
    ∧ (∀ v, es.get "score".toList = some v → rawScore (.pydict es) i = v)
    ∧ (es.get "score".toList = Option.none →
        rawScore (.pydict es) i = .num (1 - (i : ℚ) * (1 / 10)))
    ∧ (∀ v, es.get "metadata".toList = some v → rawMeta (.pydict es) = v)
    ∧ (es.get "metadata".toList = Option.none → rawMeta (.pydict es) = .dict .nil)
    ∧ rawScore (.pydict noScoreDict) 2 = .num (8 / 10) := by
  refine ⟨fun v h => by
      have h' : es.get ['t', 'e', 'x', 't'] = some v := h
      simp [rawSnippet, h'],
    fun h1 v h2 => by
      have h1' : es.get ['t', 'e', 'x', 't'] = Option.none := h1
      have h2' : es.get ['c', 'o', 'n', 't', 'e', 'n', 't'] = some v := h2
      simp [rawSnippet, h1', h2'],
    fun h1 h2 => by
      have h1' : es.get ['t', 'e', 'x', 't'] = Option.none := h1
      have h2' : es.get ['c', 'o', 'n', 't', 'e', 'n', 't'] = Option.none := h2
      simp [rawSnippet, h1', h2'],
    fun v h => by
      have h' : es.get ['s', 'c', 'o', 'r', 'e'] = some v := h
      simp [rawScore, h'],
    fun h => by
      have h' : es.get ['s', 'c', 'o', 'r', 'e'] = Option.none := h
      simp [rawScore, h', fallbackScore],
    fun v h => by
      have h' : es.get ['m', 'e', 't', 'a', 'd', 'a', 't', 'a'] = some v := h
      simp [rawMeta, h'],
    fun h => by
      have h' : es.get ['m', 'e', 't', 'a', 'd', 'a', 't', 'a'] = Option.none := h
      simp [rawMeta, h'], ?_⟩
  rw [show rawScore (.pydict noScoreDict) 2 = .num (fallbackScore 2) from rfl]
  simp only [PyVal.num.injEq, fallbackScore]
  norm_num

/-- C4 witness: on the concrete record `{"text": "x"}` the snippet is the
`text` value, and at index 2 the missing score falls back positionally. -/
theorem C4_mapping_extraction_witness :
    rawSnippet (.pydict noScoreDict) = .str "x".toList
    ∧ rawScore (.pydict noScoreDict) 2 = .num (1 - (2 : ℚ) * (1 / 10))
    ∧ rawMeta (.pydict noScoreDict) = .dict .nil := by
  refine ⟨(C4_mapping_extraction noScoreDict 0).1 (.str "x".toList) rfl, ?_, ?_⟩
  · exact (C4_mapping_extraction noScoreDict 2).2.2.2.2.1 rfl
  · exact (C4_mapping_extraction noScoreDict 0).2.2.2.2.2.2.1 rfl

set_option maxRecDepth 4000 in
/-- C5: the snippet of every produced item is the extracted text truncated
to its first 500 characters (kept whole when shorter); on the record
`{"text": "A"*600, "score": 0.9}` the snippet has length exactly 500 and
the score is exactly 0.9. -/
theorem C5_snippet_truncated :
    (∀ (r : RawResult) (i : Nat) (it : Item), extractRecord r i = .ok it →
      ∃ s, rawSnippet r = .str s ∧ it.snippet = s.take 500
        ∧ it.snippet.length = min 500 s.length
        ∧ (s.length ≤ 500 → it.snippet = s))
    ∧ extractRecord rec600 0 = .ok item600
    ∧ item600.snippet.length = 500 ∧ item600.score = 9 / 10 := by
  refine ⟨?_, ?_, by simp [item600], rfl⟩
  · intro r i it h
    obtain ⟨s, q, hs, _, hit⟩ := extractRecord_ok r i it h
    subst hit
    exact ⟨s, hs, rfl, List.length_take _ _, fun hle => List.take_of_length_le hle⟩
  · rw [show extractRecord rec600 0 = .ok ⟨"result_0".toList,
      (List.replicate 600 'A').take 500, min (max (9 / 10) 0) 1, .dict .nil⟩ from rfl]
    simp only [Except.ok.injEq, item600, Item.mk.injEq, List.take_replicate,
      true_and, and_true]
    constructor
    · norm_num
    · norm_num

/-- C5 witness: the truncation law instantiated on the 600-character record. -/
theorem C5_snippet_truncated_witness :
    ∃ s, rawSnippet rec600 = .str s ∧ item600.snippet = s.take 500
      ∧ item600.snippet.length = min 500 s.length
      ∧ (s.length ≤ 500 → item600.snippet = s) :=
  C5_snippet_truncated.1 rec600 0 item600 C5_snippet_truncated.2.1

/-- C6: the returned graph fragment is `null` exactly when the assembled
graph context holds no node and no edge; a present fragment is never empty
and is exactly the assembled context. -/
theorem C6_graph_null_iff (p g : Except Unit (List RawResult)) (k : Nat) :
    (∀ gc, (search p g k).graph_context = some gc →
      (gc.nodes ≠ [] ∨ gc.edges ≠ []) ∧ gc = (searchCore p g k).2)
    ∧ ((search p g k).graph_context = Option.none ↔
        (searchCore p g k).2.nodes = [] ∧ (searchCore p g k).2.edges = []) := by
  constructor
  · intro gc h
    rw [search_graph_eq] at h
    have hgc := finalGraph_some _ _ h
    subst hgc
    refine ⟨?_, rfl⟩
    unfold finalGraph at h
    split at h
    · cases h
    · rename_i hcond
      exact not_and_or.mp (by simpa [List.isEmpty_iff] using hcond)
  · rw [search_graph_eq, finalGraph_none_iff]

/-- C6 witness: a search that collects one edge returns it as a present,
non-empty fragment. -/
theorem C6_graph_null_iff_witness :
    ((GraphContext.mk [] [edgeXY]).nodes ≠ [] ∨
      (GraphContext.mk [] [edgeXY]).edges ≠ [])
    ∧ GraphContext.mk [] [edgeXY] = (searchCore (.ok []) (.ok [edgeRecXY]) 5).2 :=
  (C6_graph_null_iff (.ok []) (.ok [edgeRecXY]) 5).1 ⟨[], [edgeXY]⟩ rfl

/-- C7 counterexample: the mapping graph record `{"name": {}, "source":
"X", "target": "Y"}` exposes both `source` and `target`, yet no edge is
appended: `seen_nodes.add(result["name"])` at line 213 raises `TypeError`
on the unhashable dict before the edge append at lines 214-220 runs, so the
loop aborts with no edge and the returned graph is null. -/
theorem C7_counterexample :
    graphStep (.pydict esBadName) [] [] = Option.none
    ∧ processGraph [.pydict esBadName] 5 = ⟨[], []⟩
    ∧ (search (.ok []) (.ok [.pydict esBadName]) 5).graph_context
        = Option.none :=
  ⟨rfl, rfl, rfl⟩

/-- C7 (amended): a mapping-shaped graph record exposing both `source` and
`target` appends the edge `{from: source, to: target, relation: relation-or-
"related_to", weight: weight-or-0.5}` provided its `name` handling does not
raise first (no `name` key, or a hashable `name` value); in particular
`{"source": "X", "target": "Y"}` yields `{from: "X", to: "Y", relation:
"related_to", weight: 0.5}`. -/
theorem C7_edge_extraction :
    (∀ (es : PyDict) (seen : List PyVal) (edges : List Edge) (src tgt : PyVal),
      es.get "source".toList = some src → es.get "target".toList = some tgt →
      (∀ v, es.get "name".toList = some v → v.hashable = true) →
      ∃ seen1, graphStep (.pydict es) seen edges = some (seen1,
        edges ++ [⟨src, tgt,
          (es.get "relation".toList).getD (.str "related_to".toList),
          (es.get "weight".toList).getD (.num (1 / 2))⟩]))
    ∧ processGraph [edgeRecXY] 5 = ⟨[], [edgeXY]⟩ := by
  refine ⟨?_, rfl⟩
  intro es seen edges src tgt hsrc htgt hname
  have hsrc' : es.get ['s', 'o', 'u', 'r', 'c', 'e'] = some src := hsrc
  have htgt' : es.get ['t', 'a', 'r', 'g', 'e', 't'] = some tgt := htgt
  rcases hn : es.get ['n', 'a', 'm', 'e'] with _ | v
  · exact ⟨seen, by simp [graphStep, hn, hsrc', htgt']⟩
  · have hv : v.hashable = true := hname v hn
    exact ⟨addNode v seen, by simp [graphStep, hn, hv, hsrc', htgt']⟩

/-- C7 witness: the edge-extraction law instantiated on
`{"source": "X", "target": "Y"}`. -/
theorem C7_edge_extraction_witness :
    ∃ seen1, graphStep (.pydict esXY) [] [] = some (seen1,
      [] ++ [⟨.str "X".toList, .str "Y".toList,
        (esXY.get "relation".toList).getD (.str "related_to".toList),
        (esXY.get "weight".toList).getD (.num (1 / 2))⟩]) :=
  C7_edge_extraction.1 esXY [] [] (.str "X".toList) (.str "Y".toList) rfl rfl
    (fun _ h => nomatch h)

/-- C8: a failing secondary graph query is non-fatal: the response still
carries the full primary item list (identical to what any graph outcome
would give) and `graph = null` — nothing propagates. -/
theorem C8_graph_failure_nonfatal (R : List RawResult)
    (g : Except Unit (List RawResult)) (k : Nat) :
    (search (.ok R) (.error ()) k).items = (processResults R k).1
    ∧ (search (.ok R) (.error ()) k).graph_context = Option.none
    ∧ (search (.ok R) (.error ()) k).items = (search (.ok R) g k).items
    ∧ search (.ok R) (.error ()) k = ⟨(processResults R k).1, Option.none⟩ := by
  have hg : (search (.ok R) (.error ()) k).graph_context = Option.none := by
    rw [search_graph_eq]
    unfold searchCore
    rcases hp : processResults R k with ⟨its, flag⟩
    cases flag <;> simp [hp, finalGraph, emptyGC]
  refine ⟨search_items_eq R _ k, hg, by rw [search_items_eq, search_items_eq], ?_⟩
  calc search (.ok R) (.error ()) k
      = ⟨(search (.ok R) (.error ()) k).items,
          (search (.ok R) (.error ()) k).graph_context⟩ := rfl
    _ = ⟨(processResults R k).1, Option.none⟩ := by
        rw [search_items_eq, hg]

/-- C9 counterexample: with the LLM API key missing from the environment and
every other initialization step succeeding, `health_check` reports healthy
(`true`), not the boolean failure the claim requires — `_configure_llm` only
logs a warning. -/
theorem C9_counterexample : health_check Option.none false = true := rfl

/-- C9 (amended): `health_check` reports a boolean failure exactly when an
initialization step raises; a missing LLM API key by itself never makes it
report unhealthy. -/
theorem C9_health_check_amended (apiKey : Option (List Char))
    (backendRaises : Bool) :
    health_check apiKey backendRaises = !backendRaises := by
  cases backendRaises <;> cases apiKey <;> rfl

/-- C10: an exception raised while processing an individual record is caught
by the same outer handler as a backend failure: the items appended for the
records before the failing one are returned (a possibly non-empty partial
list) with `graph = null`, and nothing propagates. -/
theorem C10_partial_items_on_failure :
    (∀ (R : List RawResult) (g : Except Unit (List RawResult)) (k : Nat),
      (search (.ok R) g k).items = (processResults R k).1
      ∧ ((processResults R k).2 = true →
          (search (.ok R) g k).graph_context = Option.none))
    ∧ (∀ (r : RawResult) (rest : List RawResult) (i : Nat) (it : Item),
        extractRecord r i = .ok it →
        runItems (r :: rest) i =
          (it :: (runItems rest (i + 1)).1, (runItems rest (i + 1)).2))
    ∧ (∀ (r : RawResult) (rest : List RawResult) (i : Nat),
        extractRecord r i = .error () → runItems (r :: rest) i = ([], true)) := by
  refine ⟨?_, runItems_cons_ok, runItems_cons_err⟩
  intro R g k
  refine ⟨search_items_eq R g k, ?_⟩
  intro hf
  rw [search_graph_eq]
  unfold searchCore
  rcases hp : processResults R k with ⟨its, flag⟩
  rw [hp] at hf
  simp only at hf
  subst hf
  simp [hp, finalGraph, emptyGC]

/-- C10 witness: with a well-formed first record and a second record whose
`None` score makes the clamp raise mid-loop, search returns the one item
already appended and a null graph. -/
theorem C10_partial_items_on_failure_witness :
    runItems [goodRec, badScoreRec] 0 = ([goodItem], true)
    ∧ (search (.ok [goodRec, badScoreRec]) (.ok [edgeRecXY]) 5).items = [goodItem]
    ∧ (search (.ok [goodRec, badScoreRec]) (.ok [edgeRecXY]) 5).graph_context
        = Option.none := by
  have hrun : runItems [goodRec, badScoreRec] 0 = ([goodItem], true) := by
    rw [C10_partial_items_on_failure.2.1 goodRec [badScoreRec] 0 goodItem
        extract_goodRec,
      C10_partial_items_on_failure.2.2 badScoreRec [] 1 rfl]
  have hproc : processResults [goodRec, badScoreRec] 5 = ([goodItem], true) := hrun
  refine ⟨hrun, ?_, ?_⟩
  · rw [(C10_partial_items_on_failure.1 [goodRec, badScoreRec]
      (.ok [edgeRecXY]) 5).1, hproc]
  · exact (C10_partial_items_on_failure.1 [goodRec, badScoreRec]
      (.ok [edgeRecXY]) 5).2 (by rw [hproc])

end Noema
